import Mathlib

/- A shallow embedding of the TGSKit class (LottieFiles/tgskit).  JavaScript
runtime values that can occur in a loaded Bodymovin document are modelled by
the mutual inductive `JVal`; property access, the `in` operator and
`Array.prototype.forEach` are modelled in the `Except` monad so that the
TypeErrors dynamic JavaScript code can raise are visible.  External host
capabilities (`JSON.parse`, `new URL`, the network fetch, and the
stringify-gzip-blob pipeline inside `generate`) are passed in as explicit
collaborator functions, matching the spec's treatment of them as external
collaborators. -/

mutual

/-- JavaScript runtime values relevant to the library: the JSON value grammar
plus `undefined`.  Numbers are modelled as exact rationals (JavaScript uses
IEEE doubles; every numeric literal appearing in the checks is exactly
representable and no claim exercises rounding).  Object fields keep insertion
order, as JavaScript objects do. -/
inductive JVal where
  | undefined : JVal
  | null : JVal
  | bool : Bool → JVal
  | num : ℚ → JVal
  | str : String → JVal
  | arr : JList → JVal
  | obj : JFields → JVal

/-- A JavaScript array's element list. -/
inductive JList where
  | nil : JList
  | cons : JVal → JList → JList

/-- A JavaScript object's ordered field list.  Keys are unique in any value
produced by `JSON.parse`; lookup takes the first match. -/
inductive JFields where
  | nil : JFields
  | cons : String → JVal → JFields → JFields

end

def JList.ofList : List JVal → JList
  | [] => .nil
  | v :: tl => .cons v (JList.ofList tl)

def JFields.ofList : List (String × JVal) → JFields
  | [] => .nil
  | (k, v) :: tl => .cons k v (JFields.ofList tl)

/-- Convenience constructor for object literals. -/
def jobj (l : List (String × JVal)) : JVal := .obj (JFields.ofList l)

/-- Convenience constructor for array literals. -/
def jarr (l : List JVal) : JVal := .arr (JList.ofList l)

def JList.toList : JList → List JVal
  | .nil => []
  | .cons v tl => v :: tl.toList

def JList.all (p : JVal → Bool) : JList → Bool
  | .nil => true
  | .cons v tl => p v && tl.all p

def JList.length : JList → Nat
  | .nil => 0
  | .cons _ tl => tl.length + 1

def JList.mapJ (f : JVal → JVal) : JList → JList
  | .nil => .nil
  | .cons v tl => .cons (f v) (tl.mapJ f)

def JFields.lookup (k : String) : JFields → Option JVal
  | .nil => none
  | .cons k2 v tl => if k2 = k then some v else tl.lookup k

def JFields.hasKey (k : String) : JFields → Bool
  | .nil => false
  | .cons k2 _ tl => k2 = k || tl.hasKey k

/-- The `delete` operator on an object field list. -/
def JFields.eraseKey (k : String) : JFields → JFields
  | .nil => .nil
  | .cons k2 v tl => if k2 = k then tl.eraseKey k else .cons k2 v (tl.eraseKey k)

/-- Property assignment `o.k = v`: updates the existing binding in place, or
appends a new one, as JavaScript does. -/
def JFields.setKey (k : String) (v : JVal) : JFields → JFields
  | .nil => .cons k v .nil
  | .cons k2 v2 tl => if k2 = k then .cons k2 v tl else .cons k2 v2 (tl.setKey k v)

def JVal.isNullish : JVal → Bool
  | .null => true
  | .undefined => true
  | _ => false

def JVal.isArr : JVal → Bool
  | .arr _ => true
  | _ => false

def JVal.isObjOrArr : JVal → Bool
  | .obj _ => true
  | .arr _ => true
  | _ => false

/-- `typeof v === 'object'`: true for objects, arrays and `null`. -/
def JVal.typeofObject : JVal → Bool
  | .obj _ => true
  | .arr _ => true
  | .null => true
  | _ => false

def JVal.arrLen : JVal → Nat
  | .arr xs => xs.length
  | _ => 0

/-- Property read `v.k`.  JavaScript raises a TypeError when the receiver is
`null` or `undefined`; an object receiver yields the field value or
`undefined`, and arrays and boxed primitives have none of the field names the
library reads, so they yield `undefined`. -/
def JVal.get : JVal → String → Except String JVal
  | .null, _ => .error "TypeError"
  | .undefined, _ => .error "TypeError"
  | .obj fs, k => .ok ((fs.lookup k).getD .undefined)
  | _, _ => .ok .undefined

/-- Total companion of `JVal.get`; agrees with it whenever `get` does not
raise. -/
def JVal.getD (v : JVal) (k : String) : JVal :=
  match v with
  | .obj fs => (fs.lookup k).getD .undefined
  | _ => .undefined

/-- The `in` operator `k in v`: key membership for objects, `false` for
arrays (none of the tested keys is an array index or `length`), a TypeError
on any primitive receiver. -/
def JVal.hasKeyIn : JVal → String → Except String Bool
  | .obj fs, k => .ok (fs.hasKey k)
  | .arr _, _ => .ok false
  | _, _ => .error "TypeError"

/-- Total companion of `JVal.hasKeyIn`. -/
def JVal.hasKeyB (v : JVal) (k : String) : Bool :=
  match v with
  | .obj fs => fs.hasKey k
  | _ => false

def JVal.isBoolFalse : JVal → Bool
  | .bool false => true
  | _ => false

/-- Loose inequality against null (`x != null`): false exactly for `null`
and `undefined`. -/
def jsNeNull (v : JVal) : Bool := !v.isNullish

/-- Loose equality `v == n` against a number literal.  Booleans coerce to
0 or 1; `null` and `undefined` compare false.  The ToPrimitive/ToNumber
coercion of strings, arrays and plain objects is not modelled (no validated
field is compared through it); such receivers compare false. -/
def jsEqNum (v : JVal) (n : ℚ) : Bool :=
  match v with
  | .num q => decide (q = n)
  | .bool b => decide ((if b then (1 : ℚ) else 0) = n)
  | _ => false

/-- Strict equality `v === n` against a number literal. -/
def jsSEqNum (v : JVal) (n : ℚ) : Bool :=
  match v with
  | .num q => decide (q = n)
  | _ => false

/-- Strict equality `v === true`. -/
def jsSEqTrue : JVal → Bool
  | .bool true => true
  | _ => false

/-- Loose equality `v == s` against a non-numeric string literal such as
`'rp'`.  A number receiver coerces the literal to NaN and compares false; the
ToPrimitive coercion of arrays and objects is not modelled and compares
false. -/
def jsEqStr (v : JVal) (s : String) : Bool :=
  match v with
  | .str t => decide (t = s)
  | _ => false

/-- ToNumber as used by the `-` and `/` of the duration check, with `none`
standing for NaN.  Numeric-string and array coercions are not modelled (they
yield `none`); no claim exercises them. -/
def toNumber : JVal → Option ℚ
  | .num q => some q
  | .null => some 0
  | .bool b => some (if b then 1 else 0)
  | _ => none

/-- The condition `(op - ip) / fr > 3.0` under IEEE semantics transcribed to
exact rationals: division by zero yields a signed infinity, and any NaN
operand makes the comparison false. -/
def durGt3 (op ip fr : JVal) : Bool :=
  match toNumber op, toNumber ip, toNumber fr with
  | some o, some i, some f =>
      if 0 < f then decide (3 * f < o - i)
      else if f < 0 then decide (o - i < 3 * f)
      else decide (0 < o - i)
  | _, _, _ => false

/-- JavaScript truthiness, used by `asset.id || i`. -/
def truthy : JVal → Bool
  | .undefined => false
  | .null => false
  | .bool b => b
  | .num q => decide (q ≠ 0)
  | .str s => decide (s ≠ "")
  | _ => true

mutual

/-- The `String(v)` coercion applied by `new URL(src)` and template
literals.  Non-integral numbers render as a reduced fraction rather than
JavaScript decimal notation; no claim exercises that difference. -/
def jsToStr : JVal → String
  | .undefined => "undefined"
  | .null => "null"
  | .bool true => "true"
  | .bool false => "false"
  | .num q => toString q
  | .str s => s
  | .arr xs => jsJoin xs
  | .obj _ => "[object Object]"

/-- `Array.prototype.join(',')` as invoked by the String coercion: `null`
and `undefined` elements render empty. -/
def jsJoin : JList → String
  | .nil => ""
  | .cons v .nil => if v.isNullish then "" else jsToStr v
  | .cons v tl => (if v.isNullish then "" else jsToStr v) ++ "," ++ jsJoin tl

end

/-- IValidationError from the source: a message with optional nested details
(an absent `details` field is modelled as the empty list, which is how the
source builds leaf findings). -/
inductive Diag where
  | mk : String → List Diag → Diag

def Diag.message : Diag → String
  | .mk m _ => m

def Diag.details : Diag → List Diag
  | .mk _ ds => ds

/-- The four prohibited shape-type checks of `checkItems`, for one item's
`ty` value. -/
def shapeTypeFlags (ty : JVal) : List Diag :=
  (if jsEqStr ty "rp" then [Diag.mk "Composition should not include any Repeaters" []] else []) ++
  (if jsEqStr ty "sr" then [Diag.mk "Composition should not include any Star Shapes" []] else []) ++
  (if jsEqStr ty "mm" then [Diag.mk "Composition should not include any Merge Paths" []] else []) ++
  (if jsEqStr ty "gs" then [Diag.mk "Composition should not include any Gradient Strokes" []] else [])

/-- Walk of `checkItems`' forEach over a shape-item list; `recur` stands for
the recursive self-call `this.checkItems(item.it, false)`, taken only on the
root pass. -/
def itemsGo (recur : JVal → Except String (List Diag)) (isRoot : Bool) :
    JList → Except String (List Diag)
  | .nil => pure []
  | .cons item tl => do
      let ty ← item.get "ty"
      let flagged := shapeTypeFlags ty
      let nested ←
        if isRoot then do
          let children ← item.get "it"
          let itemErrors ← recur children
          pure (if itemErrors.isEmpty then []
                else [Diag.mk "Composition items should not have errors" itemErrors])
        else pure []
      let rest ← itemsGo recur isRoot tl
      pure (flagged ++ nested ++ rest)

/-- Body of `checkItems` with the recursive call abstracted: `items != null`
guards the walk, and a non-null non-array receiver makes `items.forEach`
raise. -/
def checkItemsBody (recur : JVal → Except String (List Diag)) (items : JVal)
    (isRoot : Bool) : Except String (List Diag) :=
  if jsNeNull items then
    match items with
    | .arr xs => itemsGo recur isRoot xs
    | _ => .error "TypeError"
  else pure []

/-- `checkItems` from the source (its second parameter is called `shapes`
there and `isRoot` in the spec).  The self-call is only reachable with
`isRoot = false`, and with `isRoot = false` the body makes no call, so the
recursion closes after one unfolding; `checkItems_fix` below recovers the
source's recursive equation. -/
def checkItems (items : JVal) (isRoot : Bool) : Except String (List Diag) :=
  checkItemsBody (fun ch => checkItemsBody (fun _ => pure []) ch false) items isRoot

/-- checkLayer from the source. -/
def checkLayer (layer : JVal) : Except String (List Diag) := do
  let ddd ← layer.get "ddd"
  let e := if jsNeNull ddd && !jsEqNum ddd 0 then
      [Diag.mk "Composition should not include any 3D Layers" []] else []
  let sr ← layer.get "sr"
  let e := e ++ (if jsNeNull sr && !jsEqNum sr 1 then
      [Diag.mk "Composition should not include any Time Stretching" []] else [])
  let tm ← layer.get "tm"
  let e := e ++ (if jsNeNull tm then
      [Diag.mk "Composition should not include any Time Remapping" []] else [])
  let ty ← layer.get "ty"
  let e := e ++ (if jsSEqNum ty 1 then
      [Diag.mk "Composition should not include any Solids" []] else [])
  let e := e ++ (if jsSEqNum ty 2 then
      [Diag.mk "Composition should not include any Images" []] else [])
  let e := e ++ (if jsSEqNum ty 5 then
      [Diag.mk "Composition should not include any Texts" []] else [])
  let hm ← layer.get "hasMask"
  let mp ← layer.get "masksProperties"
  let e := e ++ (if jsSEqTrue hm || jsNeNull mp then
      [Diag.mk "Composition should not include any Masks" []] else [])
  let tt ← layer.get "tt"
  let e := e ++ (if jsNeNull tt then
      [Diag.mk "Composition should not include any Mattes" []] else [])
  let ao ← layer.get "ao"
  let e := e ++ (if jsSEqNum ao 1 then
      [Diag.mk "Composition should not include any Auto-Oriented Layers" []] else [])
  let ef ← layer.get "ef"
  let e := e ++ (if jsNeNull ef then
      [Diag.mk "Composition should not include any Layer Effects" []] else [])
  let hk ← layer.hasKeyIn "shapes"
  if hk then do
    let sh ← layer.get "shapes"
    if sh.isArr then do
      let shapesErrors ← checkItems sh true
      pure (e ++ (if shapesErrors.isEmpty then []
          else [Diag.mk "Composition shapes should not have errors" shapesErrors]))
    else pure e
  else pure e

/-- Document-level checks of `validate` (frame rate, duration, dimensions,
3D flag) plus the commented-out markers check, whose only residue is the
evaluation of `'markers' in this._data`. -/
def docChecks (d : JVal) : Except String (List Diag) := do
  let fr ← d.get "fr"
  let e := if !jsEqNum fr 30 && !jsEqNum fr 60 then
      [Diag.mk "Frame rate must be exactly 30 or 60" []] else []
  let op ← d.get "op"
  let ip ← d.get "ip"
  let e := e ++ (if durGt3 op ip fr then
      [Diag.mk "Should not be longer than 3 seconds" []] else [])
  let w ← d.get "w"
  let h ← d.get "h"
  let e := e ++ (if !jsEqNum w 512 || !jsEqNum h 512 then
      [Diag.mk "Dimensions should be exactly 512pxx512px" []] else [])
  let ddd ← d.get "ddd"
  let e := e ++ (if jsNeNull ddd && !jsEqNum ddd 0 then
      [Diag.mk "Should not have 3D layers" []] else [])
  let _ ← d.hasKeyIn "markers"
  pure e

/-- `asset.id || i` rendered into the template literal. -/
def assetKey (idv : JVal) (i : Nat) : String :=
  if truthy idv then jsToStr idv else toString i

/-- One iteration of the assets forEach.  Note the source passes the whole
`asset.layers` array to `checkLayer`, not each of its elements. -/
def assetEntry (i : Nat) (a : JVal) : Except String (List Diag) := do
  let hk ← a.hasKeyIn "layers"
  if hk then do
    let lys ← a.get "layers"
    if lys.isArr then do
      let assetErrors ← checkLayer lys
      if assetErrors.isEmpty then pure []
      else do
        let idv ← a.get "id"
        let key := assetKey idv i
        pure [Diag.mk (s!"Asset {key} has errors") assetErrors]
    else pure []
  else pure []

def assetsGo (i : Nat) : JList → Except String (List Diag)
  | .nil => pure []
  | .cons a tl => do
      let e ← assetEntry i a
      let rest ← assetsGo (i + 1) tl
      pure (e ++ rest)

/-- The assets block of `validate`. -/
def assetsBlock (d : JVal) : Except String (List Diag) := do
  let hk ← d.hasKeyIn "assets"
  if hk then do
    let assets0 ← d.get "assets"
    match assets0 with
    | .arr xs => do
        let assetsErrors ← assetsGo 0 xs
        pure (if assetsErrors.isEmpty then []
            else [Diag.mk "Assets must not have errors" assetsErrors])
    | _ => pure []
  else pure []

/-- Walk of `this._data.layers`.  In the source the push of the parent
`'Layers have errors'` diagnostic sits inside the forEach, and its `details`
field aliases the still-growing `layersErrors` array: when the loop finishes,
one parent diagnostic has been pushed for every iteration from the first
failing layer on, each holding the final `layersErrors` list.  `wrapGo`
returns that final list together with the number of pushes, which is the
final observable state of the source's loop. -/
def wrapGo (acc : List Diag) (k : Nat) : JList → Except String (List Diag × Nat)
  | .nil => pure (acc, k)
  | .cons l tl => do
      let layerErrors ← checkLayer l
      let acc2 := if layerErrors.isEmpty then acc else acc ++ [Diag.mk "Layer " layerErrors]
      wrapGo acc2 (if acc2.isEmpty then k else k + 1) tl

/-- The layers block of `validate`: a missing or non-array `layers` field is
the at-least-one-layer violation. -/
def layersBlock (d : JVal) : Except String (List Diag) := do
  let hk ← d.hasKeyIn "layers"
  if hk then do
    let lys ← d.get "layers"
    match lys with
    | .arr xs => do
        let wk ← wrapGo [] 0 xs
        pure (List.replicate wk.2 (Diag.mk "Layers have errors" wk.1))
    | _ => pure [Diag.mk "Should have atleast 1 layer" []]
  else pure [Diag.mk "Should have atleast 1 layer" []]

/-- The fonts and glyph-chars checks of `validate`. -/
def fontsCharsChecks (d : JVal) : Except String (List Diag) := do
  let hkf ← d.hasKeyIn "fonts"
  let ef ←
    if hkf then do
      let fonts ← d.get "fonts"
      pure (if fonts.isArr && decide (0 < fonts.arrLen) then
          [Diag.mk "Should not have fonts" []] else [])
    else pure []
  let hkc ← d.hasKeyIn "chars"
  let ec ←
    if hkc then do
      let chars ← d.get "chars"
      pure (if chars.isArr && decide (0 < chars.arrLen) then
          [Diag.mk "Should not have glyph chars" []] else [])
    else pure []
  pure (ef ++ ec)

/-- Mutation performed by `generate()`: set `tgs = 1` (updating in place, or
appending when absent, as JavaScript assignment does), then `delete` the
`markers`, `fonts` and `chars` fields.  On a non-object `_data` the
named-property surgery is invisible to serialization and is modelled as the
identity. -/
def generateMut (d : JVal) : JVal :=
  match d with
  | .obj fs =>
      .obj ((((fs.setKey "tgs" (.num 1)).eraseKey "markers").eraseKey "fonts").eraseKey "chars")
  | v => v

/-- The size-budget check `this.generate().size > 65536`.  `asize` is the
external stringify-gzip-blob pipeline (`JSON.stringify`, `pako.gzip`, `Blob`)
measured in bytes, applied to the document `generate` has just mutated; the
mutated document is returned alongside, since `generate` reassigns fields of
`this._data`. -/
def sizeCheck (asize : JVal → Nat) (d : JVal) : List Diag × JVal :=
  let d2 := generateMut d
  (if 65536 < asize d2 then [Diag.mk "Total sticker size should not exceed 64 KB" []] else [],
   d2)

/-- validate from the source (the nested-diagnostics variant), in source
order: frame rate, duration, dimensions, 3D, markers residue, assets, layers,
fonts, chars, size.  Returns the diagnostics together with the document state
after the embedded `generate` call. -/
def validate (asize : JVal → Nat) (d : JVal) : Except String (List Diag × JVal) := do
  let e1 ← docChecks d
  let e2 ← assetsBlock d
  let e3 ← layersBlock d
  let e4 ← fontsCharsChecks d
  let sz := sizeCheck asize d
  pure (e1 ++ e2 ++ e3 ++ e4 ++ sz.1, sz.2)

/-- parseJSON from the source: the external `JSON.parse` collaborator `jp`,
with the sentinel `false` returned when parsing throws. -/
def parseJSON (jp : String → Option JVal) (s : String) : JVal :=
  (jp s).getD (.bool false)

/-- load from the source.  `jp` models `JSON.parse`; `pURL` models the
`new URL` constructor (returning the normalized `url.toString()`, or `none`
when the constructor throws), applied - as in the source - to the possibly
re-assigned `src` after String coercion; `ftch` models `fetchPath` (the
parsed response, or `none` for a rejection). -/
def load (jp : String → Option JVal) (pURL : String → Option String)
    (ftch : String → Option JVal) (src0 : JVal) : Except String JVal := do
  let src ←
    match src0 with
    | .str s =>
        let json := parseJSON jp s
        let src1 := if !json.isBoolFalse then json else .str s
        match pURL (jsToStr src1) with
        | some u =>
            match ftch u with
            | some v => pure v
            | none => Except.error "Error loading remote resource."
        | none => pure src1
    | _ => pure src0
  if src.typeofObject then pure src
  else Except.error "Given resource could not be loaded or is invalid."


/-! ### Structural soundness predicates

`validate` walks an untyped tree; these predicates delimit the documents on
which no property access of the walk raises a TypeError. -/

/-- Soundness of a root shape item's `it` value: absent/null it is skipped,
a list must not contain nullish entries (whose `.ty` read would raise), and
any other non-null value makes `forEach` raise. -/
def benignIt : JVal → Bool
  | .null => true
  | .undefined => true
  | .arr ys => ys.all (fun y => !y.isNullish)
  | _ => false

/-- Soundness of one top-level shape item. -/
def benignRootItem (item : JVal) : Bool :=
  !item.isNullish && benignIt (item.getD "it")

/-- Soundness of one entry of the document's `layers` list: primitives raise
at `'shapes' in layer`, nullish entries at `layer.ddd`; a present list-valued
`shapes` field must contain sound items. -/
def benignLayer : JVal → Bool
  | .obj fs =>
      (match fs.lookup "shapes" with
       | some (.arr xs) => xs.all benignRootItem
       | _ => true)
  | .arr _ => true
  | _ => false

/-- Soundness of a whole document for `validate`: the receiver must be an
object or array, asset entries must be objects or arrays, and layer entries
must be sound. -/
def benignDoc : JVal → Bool
  | .obj fs =>
      (match fs.lookup "assets" with
       | some (.arr xs) => xs.all JVal.isObjOrArr
       | _ => true) &&
      (match fs.lookup "layers" with
       | some (.arr xs) => xs.all benignLayer
       | _ => true)
  | .arr _ => true
  | _ => false

/-! ### Surgery helpers used to state the recursion-depth property -/

/-- Remove a key from an object value; other values are unchanged. -/
def eraseKeyJ (k : String) : JVal → JVal
  | .obj fs => .obj (fs.eraseKey k)
  | v => v

/-- Remove the `it` key of every element of a list value. -/
def pruneTop : JVal → JVal
  | .arr ys => .arr (ys.mapJ (eraseKeyJ "it"))
  | v => v

/-- Rewrite the values bound to `it` by `pruneTop`, keeping everything else. -/
def pruneGrandFields : JFields → JFields
  | .nil => .nil
  | .cons k v tl => .cons k (if k = "it" then pruneTop v else v) (pruneGrandFields tl)

/-- Erase the `it` fields of the grandchildren of a shape item: the subtrees
that sit strictly below depth two of the shape tree. -/
def pruneGrand : JVal → JVal
  | .obj fs => .obj (pruneGrandFields fs)
  | v => v

/-! ### Concrete fixtures -/

/-- Size collaborator that reports every artifact as empty. -/
def zeroSize : JVal → Nat := fun _ => 0

/-- Size collaborator that reports every artifact as 70000 bytes. -/
def bigSize : JVal → Nat := fun _ => 70000

/-- A document passing every check: 30 fps, 3 seconds, 512x512, one shape
layer. -/
def docClean : JVal := jobj [("fr", .num 30), ("ip", .num 0), ("op", .num 90),
  ("w", .num 512), ("h", .num 512), ("layers", jarr [jobj [("ty", .num 4)]])]

/-- A document whose `layers` list contains `null`. -/
def docNullLayer : JVal := jobj [("layers", jarr [.null])]

/-- An otherwise clean document with a repeater at `shapes[0].it[0]` of its
only layer. -/
def docNestedRp : JVal := jobj [("fr", .num 30), ("ip", .num 0), ("op", .num 90),
  ("w", .num 512), ("h", .num 512),
  ("layers", jarr [jobj [("ty", .num 4),
    ("shapes", jarr [jobj [("ty", .str "gr"),
      ("it", jarr [jobj [("ty", .str "rp")]])]])]])]

/-- An otherwise clean document with a non-empty `markers` list. -/
def docMarkers : JVal := jobj [("fr", .num 30), ("ip", .num 0), ("op", .num 90),
  ("w", .num 512), ("h", .num 512), ("markers", jarr [.num 1]),
  ("layers", jarr [jobj [("ty", .num 4)]])]

/-- An otherwise clean document whose only asset holds a Solid layer
(type code 1). -/
def docAssetSolid : JVal := jobj [("fr", .num 30), ("ip", .num 0), ("op", .num 90),
  ("w", .num 512), ("h", .num 512),
  ("layers", jarr [jobj [("ty", .num 4)]]),
  ("assets", jarr [jobj [("layers", jarr [jobj [("ty", .num 1)]])]])]

/-- An otherwise clean document with a non-empty `fonts` list. -/
def docFonts : JVal := jobj [("fr", .num 30), ("ip", .num 0), ("op", .num 90),
  ("w", .num 512), ("h", .num 512), ("fonts", jarr [.num 1]),
  ("layers", jarr [jobj [("ty", .num 4)]])]

/-- Duration exactly 3.0 seconds: (91 - 1) / 30. -/
def docDur91 : JVal := jobj [("fr", .num 30), ("ip", .num 1), ("op", .num 91),
  ("w", .num 512), ("h", .num 512), ("layers", jarr [jobj [("ty", .num 4)]])]

/-- Duration 91 / 30, just above 3.0 seconds. -/
def docDur92 : JVal := jobj [("fr", .num 30), ("ip", .num 1), ("op", .num 92),
  ("w", .num 512), ("h", .num 512), ("layers", jarr [jobj [("ty", .num 4)]])]

/-- An otherwise clean document with frame rate 25 (duration 60/25 < 3). -/
def docFr25 : JVal := jobj [("fr", .num 25), ("ip", .num 0), ("op", .num 60),
  ("w", .num 512), ("h", .num 512), ("layers", jarr [jobj [("ty", .num 4)]])]

/-- The repeater item used by the recursion-depth fixtures. -/
def rpItem : JVal := jobj [("ty", .str "rp")]

/-- The `it` list holding the repeater. -/
def rpItList : JList := JList.ofList [rpItem]

/-- A group shape item with the repeater one level inside. -/
def groupItem : JVal := jobj [("ty", .str "gr"), ("it", .arr rpItList)]

/-- The shapes list holding the group. -/
def groupShapes : JList := JList.ofList [groupItem]

/-- JSON.parse collaborator accepting only the text `false`. -/
def jpFalseOnly : String → Option JVal :=
  fun s => if s = "false" then some (.bool false) else none

/-- JSON.parse collaborator accepting only the quoted-URL text. -/
def jpQuotedURL : String → Option JVal :=
  fun s => if s = "\"http://example.com/\"" then some (.str "http://example.com/") else none

/-- JSON.parse collaborator accepting only the empty-object text. -/
def jpEmptyObj : String → Option JVal :=
  fun s => if s = "{}" then some (jobj []) else none

/-- URL collaborator rejecting everything. -/
def noURL : String → Option String := fun _ => none

/-- URL collaborator accepting exactly the example URL. -/
def pURLExample : String → Option String :=
  fun s => if s = "http://example.com/" then some "http://example.com/" else none

/-- Fetch collaborator rejecting everything. -/
def noFetch : String → Option JVal := fun _ => none

/-- Fetch collaborator answering every request with a marker object. -/
def fetchStub : String → Option JVal := fun _ => some (jobj [("fetched", .num 1)])

/-! ### Infrastructure lemmas -/

theorem except_bind_ok {ε α β : Type} {x : Except ε α} {f : α → Except ε β} {r : β} :
    (x >>= f) = .ok r ↔ ∃ v, x = .ok v ∧ f v = .ok r := by
  cases x with
  | error e => simp [Bind.bind, Except.bind]
  | ok v => simp [Bind.bind, Except.bind]

@[simp] theorem Diag.message_mk (s : String) (l : List Diag) : (Diag.mk s l).message = s := rfl

@[simp] theorem Diag.details_mk (s : String) (l : List Diag) : (Diag.mk s l).details = l := rfl

theorem mem_ite_singleton {α : Type} (c : Prop) [Decidable c] (a b : α) :
    (a ∈ if c then [b] else []) ↔ c ∧ a = b := by
  split <;> simp_all

theorem hasKeyIn_ok_isObjOrArr {d : JVal} {k : String} {b : Bool}
    (h : d.hasKeyIn k = .ok b) : d.isObjOrArr = true := by
  cases d <;> simp_all [JVal.hasKeyIn, JVal.isObjOrArr]

theorem get_of_objOrArr {d : JVal} {k : String} (h : d.isObjOrArr = true) :
    d.get k = .ok (d.getD k) := by
  cases d <;> simp_all [JVal.get, JVal.getD, JVal.isObjOrArr]

theorem hasKeyIn_of_objOrArr {d : JVal} {k : String} (h : d.isObjOrArr = true) :
    d.hasKeyIn k = .ok (d.hasKeyB k) := by
  cases d <;> simp_all [JVal.hasKeyIn, JVal.hasKeyB, JVal.isObjOrArr]

@[simp] theorem except_ok_bind {ε α β : Type} (v : α) (f : α → Except ε β) :
    (Except.ok v >>= f) = f v := rfl

@[simp] theorem except_error_bind {ε α β : Type} (e : ε) (f : α → Except ε β) :
    ((Except.error e : Except ε α) >>= f) = .error e := rfl

@[simp] theorem except_pure_eq_ok {ε α : Type} (v : α) :
    (pure v : Except ε α) = .ok v := rfl

@[simp] theorem JVal.get_obj (fs : JFields) (k : String) :
    (JVal.obj fs).get k = .ok ((fs.lookup k).getD .undefined) := rfl

@[simp] theorem JVal.get_arr (xs : JList) (k : String) :
    (JVal.arr xs).get k = .ok .undefined := rfl

@[simp] theorem JVal.get_str (s k : String) : (JVal.str s).get k = .ok .undefined := rfl

@[simp] theorem JVal.get_num (q : ℚ) (k : String) : (JVal.num q).get k = .ok .undefined := rfl

@[simp] theorem JVal.get_bool (b : Bool) (k : String) : (JVal.bool b).get k = .ok .undefined := rfl

@[simp] theorem JVal.get_null (k : String) : JVal.null.get k = .error "TypeError" := rfl

@[simp] theorem JVal.get_undef (k : String) : JVal.undefined.get k = .error "TypeError" := rfl

@[simp] theorem JVal.hasKeyIn_obj (fs : JFields) (k : String) :
    (JVal.obj fs).hasKeyIn k = .ok (fs.hasKey k) := rfl

@[simp] theorem JVal.hasKeyIn_arr (xs : JList) (k : String) :
    (JVal.arr xs).hasKeyIn k = .ok false := rfl

@[simp] theorem JVal.getD_obj (fs : JFields) (k : String) :
    (JVal.obj fs).getD k = (fs.lookup k).getD .undefined := rfl

@[simp] theorem JVal.getD_arr (xs : JList) (k : String) : (JVal.arr xs).getD k = .undefined := rfl

@[simp] theorem JVal.hasKeyB_obj (fs : JFields) (k : String) :
    (JVal.obj fs).hasKeyB k = fs.hasKey k := rfl

@[simp] theorem JVal.hasKeyB_arr (xs : JList) (k : String) :
    (JVal.arr xs).hasKeyB k = false := rfl

/-! ### Total mirrors of the check conditions, for stating lemmas -/

/-- Frame-rate violation condition, as evaluated by `validate`. -/
def frCond (d : JVal) : Bool := !jsEqNum (d.getD "fr") 30 && !jsEqNum (d.getD "fr") 60

/-- Duration violation condition, as evaluated by `validate`. -/
def durCond (d : JVal) : Bool := durGt3 (d.getD "op") (d.getD "ip") (d.getD "fr")

/-- Dimension violation condition, as evaluated by `validate`. -/
def dimCond (d : JVal) : Bool := !jsEqNum (d.getD "w") 512 || !jsEqNum (d.getD "h") 512

/-- 3D violation condition, as evaluated by `validate`. -/
def dddCond (d : JVal) : Bool := jsNeNull (d.getD "ddd") && !jsEqNum (d.getD "ddd") 0

/-- Fonts violation condition, as evaluated by `validate`. -/
def fontsCond (d : JVal) : Bool :=
  d.hasKeyB "fonts" && ((d.getD "fonts").isArr && decide (0 < (d.getD "fonts").arrLen))

/-- Glyph-chars violation condition, as evaluated by `validate`. -/
def charsCond (d : JVal) : Bool :=
  d.hasKeyB "chars" && ((d.getD "chars").isArr && decide (0 < (d.getD "chars").arrLen))

/-- The value `docChecks` returns when it does not raise. -/
def docChecksVal (d : JVal) : List Diag :=
  (if frCond d then [Diag.mk "Frame rate must be exactly 30 or 60" []] else []) ++
  (if durCond d then [Diag.mk "Should not be longer than 3 seconds" []] else []) ++
  (if dimCond d then [Diag.mk "Dimensions should be exactly 512pxx512px" []] else []) ++
  (if dddCond d then [Diag.mk "Should not have 3D layers" []] else [])

/-- The value `fontsCharsChecks` returns when it does not raise. -/
def fontsCharsVal (d : JVal) : List Diag :=
  (if fontsCond d then [Diag.mk "Should not have fonts" []] else []) ++
  (if charsCond d then [Diag.mk "Should not have glyph chars" []] else [])

theorem docChecks_objOrArr {d : JVal} (h : d.isObjOrArr = true) :
    docChecks d = .ok (docChecksVal d) := by
  cases d <;> simp_all [JVal.isObjOrArr] <;> rfl

theorem fontsCharsChecks_objOrArr {d : JVal} (h : d.isObjOrArr = true) :
    fontsCharsChecks d = .ok (fontsCharsVal d) := by
  cases d with
  | obj fs =>
      simp only [fontsCharsChecks, fontsCharsVal, fontsCond, charsCond, JVal.hasKeyIn_obj,
        JVal.hasKeyB_obj, JVal.getD_obj, JVal.get_obj, except_ok_bind]
      by_cases hf : fs.hasKey "fonts" = true <;> by_cases hc : fs.hasKey "chars" = true <;>
        simp [hf, hc, Bool.not_eq_true]
  | arr xs => rfl
  | _ => simp_all [JVal.isObjOrArr]

theorem checkLayer_arr (xs : JList) : checkLayer (.arr xs) = .ok [] := rfl

theorem assetEntry_shape {i : Nat} {a : JVal} {e : List Diag}
    (h : assetEntry i a = .ok e) : e = [] := by
  cases a with
  | obj fs =>
      by_cases hk : fs.hasKey "layers" = true <;>
        rcases hv : (fs.lookup "layers").getD .undefined with _ | _ | b | q | s | ys | gs <;>
          simp_all [assetEntry, checkLayer_arr, JVal.isArr]
  | arr xs => simp_all [assetEntry, JVal.hasKeyIn]
  | undefined => simp_all [assetEntry, JVal.hasKeyIn]
  | null => simp_all [assetEntry, JVal.hasKeyIn]
  | bool b => simp_all [assetEntry, JVal.hasKeyIn]
  | num q => simp_all [assetEntry, JVal.hasKeyIn]
  | str s => simp_all [assetEntry, JVal.hasKeyIn]

theorem assetsGo_shape : ∀ (xs : JList) {i : Nat} {A : List Diag},
    assetsGo i xs = .ok A → A = []
  | .nil, i, A, h => by
      simp only [assetsGo, except_pure_eq_ok, Except.ok.injEq] at h
      exact h.symm
  | .cons a tl, i, A, h => by
      simp only [assetsGo] at h
      rw [except_bind_ok] at h
      obtain ⟨e, he, h⟩ := h
      rw [except_bind_ok] at h
      obtain ⟨rest, hrest, h⟩ := h
      simp only [except_pure_eq_ok, Except.ok.injEq] at h
      have h1 := assetEntry_shape he
      have h2 := assetsGo_shape tl hrest
      subst h1
      subst h2
      simpa using h.symm

theorem assetsBlock_ok_nil {d : JVal} {e2 : List Diag} (h : assetsBlock d = .ok e2) :
    e2 = [] := by
  cases d with
  | obj fs =>
      simp only [assetsBlock, JVal.hasKeyIn_obj, except_ok_bind] at h
      by_cases hk : fs.hasKey "assets" = true
      · simp only [hk, if_true, JVal.get_obj, except_ok_bind] at h
        rcases hv : (fs.lookup "assets").getD .undefined with _ | _ | b | q | s | ys | gs <;>
          rw [hv] at h
        all_goals
          first
          | (simp only [except_pure_eq_ok, Except.ok.injEq] at h; exact h.symm)
          | (rw [except_bind_ok] at h
             obtain ⟨A, hA, h⟩ := h
             have hA0 := assetsGo_shape _ hA
             subst hA0
             simp only [List.isEmpty_nil, if_true, except_pure_eq_ok, Except.ok.injEq] at h
             exact h.symm)
      · simp only [hk] at h
        simp at h
        exact h
  | arr xs =>
      simp [assetsBlock] at h
      exact h
  | undefined => simp_all [assetsBlock, JVal.hasKeyIn]
  | null => simp_all [assetsBlock, JVal.hasKeyIn]
  | bool b => simp_all [assetsBlock, JVal.hasKeyIn]
  | num q => simp_all [assetsBlock, JVal.hasKeyIn]
  | str s => simp_all [assetsBlock, JVal.hasKeyIn]

theorem layersBlock_shape {d : JVal} {e3 : List Diag} (h : layersBlock d = .ok e3) :
    e3 = [Diag.mk "Should have atleast 1 layer" []] ∨
      ∃ W k, e3 = List.replicate k (Diag.mk "Layers have errors" W) := by
  cases d with
  | obj fs =>
      simp only [layersBlock, JVal.hasKeyIn_obj, except_ok_bind] at h
      by_cases hk : fs.hasKey "layers" = true
      · simp only [hk, if_true, JVal.get_obj, except_ok_bind] at h
        rcases hv : (fs.lookup "layers").getD .undefined with _ | _ | b | q | s | ys | gs <;>
          rw [hv] at h
        all_goals
          first
          | (simp only [except_pure_eq_ok, Except.ok.injEq] at h; exact Or.inl h.symm)
          | (rw [except_bind_ok] at h
             obtain ⟨wk, hwk, h⟩ := h
             simp only [except_pure_eq_ok, Except.ok.injEq] at h
             exact Or.inr ⟨wk.1, wk.2, h.symm⟩)
      · simp only [hk] at h
        simp at h
        exact Or.inl h.symm
  | arr xs =>
      simp [layersBlock] at h
      exact Or.inl h.symm
  | undefined => simp_all [layersBlock, JVal.hasKeyIn]
  | null => simp_all [layersBlock, JVal.hasKeyIn]
  | bool b => simp_all [layersBlock, JVal.hasKeyIn]
  | num q => simp_all [layersBlock, JVal.hasKeyIn]
  | str s => simp_all [layersBlock, JVal.hasKeyIn]

theorem docChecks_ok_isObjOrArr {d : JVal} {e1 : List Diag} (h : docChecks d = .ok e1) :
    d.isObjOrArr = true := by
  cases d <;> simp_all [docChecks, JVal.hasKeyIn, JVal.isObjOrArr]

theorem validate_ok_iff {asize : JVal → Nat} {d : JVal} {e : List Diag} {d2 : JVal} :
    validate asize d = .ok (e, d2) ↔
      ∃ e1 e2 e3 e4, docChecks d = .ok e1 ∧ assetsBlock d = .ok e2 ∧
        layersBlock d = .ok e3 ∧ fontsCharsChecks d = .ok e4 ∧
        e = e1 ++ e2 ++ e3 ++ e4 ++ (sizeCheck asize d).1 ∧ d2 = (sizeCheck asize d).2 := by
  constructor
  · intro h
    simp only [validate] at h
    rw [except_bind_ok] at h
    obtain ⟨e1, h1, h⟩ := h
    rw [except_bind_ok] at h
    obtain ⟨e2, h2, h⟩ := h
    rw [except_bind_ok] at h
    obtain ⟨e3, h3, h⟩ := h
    rw [except_bind_ok] at h
    obtain ⟨e4, h4, h⟩ := h
    simp only [except_pure_eq_ok, Except.ok.injEq, Prod.mk.injEq] at h
    exact ⟨e1, e2, e3, e4, h1, h2, h3, h4, h.1.symm, h.2.symm⟩
  · rintro ⟨e1, e2, e3, e4, h1, h2, h3, h4, he, hd⟩
    simp [validate, h1, h2, h3, h4, he, hd]

@[simp] theorem sizeCheck_fst (asize : JVal → Nat) (d : JVal) :
    (sizeCheck asize d).1 =
      if 65536 < asize (generateMut d) then
        [Diag.mk "Total sticker size should not exceed 64 KB" []] else [] := rfl

@[simp] theorem sizeCheck_snd (asize : JVal → Nat) (d : JVal) :
    (sizeCheck asize d).2 = generateMut d := rfl

@[simp] theorem map_message_ite (c : Prop) [Decidable c] (s : String) (l : List Diag) :
    List.map Diag.message (if c then [Diag.mk s l] else []) = if c then [s] else [] := by
  split <;> simp

/-- Every successful `validate` run decomposes into the document checks, the
layers block (the assets block provably contributes nothing: `checkLayer`
receives the whole `asset.layers` array and finds nothing on an array), the
fonts/chars checks, and the size check, in that order. -/
theorem validate_ok_decomp {asize : JVal → Nat} {d : JVal} {e : List Diag} {d2 : JVal}
    (hv : validate asize d = .ok (e, d2)) :
    d.isObjOrArr = true ∧ d2 = generateMut d ∧
      ∃ e3, (e3 = [Diag.mk "Should have atleast 1 layer" []] ∨
              ∃ W k, e3 = List.replicate k (Diag.mk "Layers have errors" W)) ∧
        layersBlock d = .ok e3 ∧
        e = docChecksVal d ++ e3 ++ fontsCharsVal d ++
          (if 65536 < asize (generateMut d) then
            [Diag.mk "Total sticker size should not exceed 64 KB" []] else []) := by
  obtain ⟨e1, e2, e3, e4, h1, h2, h3, h4, he, hd⟩ := validate_ok_iff.mp hv
  have hobj := docChecks_ok_isObjOrArr h1
  rw [docChecks_objOrArr hobj] at h1
  injection h1 with h1
  have h2n := assetsBlock_ok_nil h2
  rw [fontsCharsChecks_objOrArr hobj] at h4
  injection h4 with h4
  refine ⟨hobj, by simpa using hd, e3, layersBlock_shape h3, h3, ?_⟩
  subst h2n
  rw [he, ← h1, ← h4]
  simp

/-! ### Claim theorems -/

/-- C2: for every document whose `fr` field is the number `f` and every
successful `validate` run, the frame-rate diagnostic appears in the returned
sequence exactly when `f` is neither 30 nor 60. -/
theorem c2_frame_rate_iff {asize : JVal → Nat} {d : JVal} {f : ℚ} {e : List Diag} {d2 : JVal}
    (hfr : d.getD "fr" = .num f) (hv : validate asize d = .ok (e, d2)) :
    "Frame rate must be exactly 30 or 60" ∈ e.map Diag.message ↔ (f ≠ 30 ∧ f ≠ 60) := by
  obtain ⟨hobj, hd2, e3, hshape, hlb, he⟩ := validate_ok_decomp hv
  subst he
  rcases hshape with h3 | ⟨W, k, h3⟩ <;> subst h3 <;>
    simp [docChecksVal, fontsCharsVal, mem_ite_singleton, frCond, durCond, dimCond, dddCond,
      hfr, jsEqNum, List.mem_replicate]

set_option maxRecDepth 8000 in
/-- C2 witness: at a document with `fr = 25` the frame-rate diagnostic is
returned. -/
theorem c2_frame_rate_iff_witness :
    "Frame rate must be exactly 30 or 60" ∈
      List.map Diag.message [Diag.mk "Frame rate must be exactly 30 or 60" []] :=
  (c2_frame_rate_iff (f := 25)
    (by with_unfolding_all rfl : docFr25.getD "fr" = .num 25)
    (by with_unfolding_all rfl : validate zeroSize docFr25 =
      .ok ([Diag.mk "Frame rate must be exactly 30 or 60" []], generateMut docFr25))).mpr
    (by norm_num)

/-- C3: for every document with numeric `op`, `ip` and non-zero numeric `fr`,
a successful `validate` run returns the duration diagnostic exactly when
`(op - ip) / fr` exceeds 3, with exact comparison at the boundary. -/
theorem c3_duration_iff {asize : JVal → Nat} {d : JVal} {o i f : ℚ} {e : List Diag} {d2 : JVal}
    (hop : d.getD "op" = .num o) (hip : d.getD "ip" = .num i) (hfr : d.getD "fr" = .num f)
    (hf : f ≠ 0) (hv : validate asize d = .ok (e, d2)) :
    "Should not be longer than 3 seconds" ∈ e.map Diag.message ↔ 3 < (o - i) / f := by
  obtain ⟨hobj, hd2, e3, hshape, hlb, he⟩ := validate_ok_decomp hv
  subst he
  have hdur : (durCond d = true) ↔ 3 < (o - i) / f := by
    simp only [durCond, hop, hip, hfr, durGt3, toNumber]
    rcases lt_trichotomy f 0 with hlt | heq | hgt
    · rw [if_neg (not_lt.mpr hlt.le), if_pos hlt, decide_eq_true_eq]
      exact (lt_div_iff_of_neg hlt).symm
    · exact absurd heq hf
    · rw [if_pos hgt, decide_eq_true_eq]
      exact (lt_div_iff₀ hgt).symm
  rcases hshape with h3 | ⟨W, k, h3⟩ <;> subst h3 <;>
    simp [docChecksVal, fontsCharsVal, mem_ite_singleton, List.mem_replicate, hdur]

set_option maxRecDepth 8000 in
/-- C3 witness: duration (92-1)/30 is flagged, duration (91-1)/30 = 3.0
exactly is not. -/
theorem c3_duration_iff_witness :
    ("Should not be longer than 3 seconds" ∈
        List.map Diag.message [Diag.mk "Should not be longer than 3 seconds" []]) ∧
      "Should not be longer than 3 seconds" ∉ List.map Diag.message ([] : List Diag) := by
  constructor
  · exact (c3_duration_iff (o := 92) (i := 1) (f := 30)
      (by with_unfolding_all rfl : docDur92.getD "op" = .num 92)
      (by with_unfolding_all rfl : docDur92.getD "ip" = .num 1)
      (by with_unfolding_all rfl : docDur92.getD "fr" = .num 30)
      (by norm_num)
      (by with_unfolding_all rfl : validate zeroSize docDur92 =
        .ok ([Diag.mk "Should not be longer than 3 seconds" []], generateMut docDur92))).mpr
      (by norm_num)
  · intro hmem
    have h3 := (c3_duration_iff (o := 91) (i := 1) (f := 30)
      (by with_unfolding_all rfl : docDur91.getD "op" = .num 91)
      (by with_unfolding_all rfl : docDur91.getD "ip" = .num 1)
      (by with_unfolding_all rfl : docDur91.getD "fr" = .num 30)
      (by norm_num)
      (by with_unfolding_all rfl : validate zeroSize docDur91 =
        .ok ([], generateMut docDur91))).mp hmem
    norm_num at h3

/-- C4: a successful `validate` run returns the size-budget diagnostic
exactly when the compressed artifact of the canonicalized document measures
strictly more than 65536 bytes. -/
theorem c4_size_iff {asize : JVal → Nat} {d : JVal} {e : List Diag} {d2 : JVal}
    (hv : validate asize d = .ok (e, d2)) :
    "Total sticker size should not exceed 64 KB" ∈ e.map Diag.message ↔
      65536 < asize (generateMut d) := by
  obtain ⟨hobj, hd2, e3, hshape, hlb, he⟩ := validate_ok_decomp hv
  subst he
  rcases hshape with h3 | ⟨W, k, h3⟩ <;> subst h3 <;>
    simp [docChecksVal, fontsCharsVal, mem_ite_singleton, List.mem_replicate]

set_option maxRecDepth 8000 in
/-- C4 witness: with a 70000-byte artifact the diagnostic appears, with a
0-byte artifact it does not. -/
theorem c4_size_iff_witness :
    ("Total sticker size should not exceed 64 KB" ∈
        List.map Diag.message [Diag.mk "Total sticker size should not exceed 64 KB" []]) ∧
      "Total sticker size should not exceed 64 KB" ∉ List.map Diag.message ([] : List Diag) := by
  constructor
  · exact (c4_size_iff (by with_unfolding_all rfl : validate bigSize docClean =
      .ok ([Diag.mk "Total sticker size should not exceed 64 KB" []],
        generateMut docClean))).mpr (by norm_num [bigSize])
  · intro hmem
    have h4 := (c4_size_iff (by with_unfolding_all rfl : validate zeroSize docClean =
      .ok ([], generateMut docClean))).mp hmem
    norm_num [zeroSize] at h4

/-! ### Field-surgery lemmas -/

theorem JFields.lookup_eraseKey_ne : ∀ (fs : JFields) {k k2 : String}, k2 ≠ k →
    (fs.eraseKey k).lookup k2 = fs.lookup k2
  | .nil, _, _, _ => rfl
  | .cons k3 v tl, k, k2, h => by
      by_cases h3 : k3 = k
      · subst h3
        have hne : ¬(k3 = k2) := fun hh => h hh.symm
        simp [JFields.eraseKey, JFields.lookup, hne, JFields.lookup_eraseKey_ne tl h]
      · simp only [JFields.eraseKey, if_neg h3, JFields.lookup]
        rw [JFields.lookup_eraseKey_ne tl h]

theorem JFields.hasKey_eraseKey_ne : ∀ (fs : JFields) {k k2 : String}, k2 ≠ k →
    (fs.eraseKey k).hasKey k2 = fs.hasKey k2
  | .nil, _, _, _ => rfl
  | .cons k3 v tl, k, k2, h => by
      by_cases h3 : k3 = k
      · subst h3
        have hne : ¬(k3 = k2) := fun hh => h hh.symm
        simp [JFields.eraseKey, JFields.hasKey, hne, JFields.hasKey_eraseKey_ne tl h]
      · simp only [JFields.eraseKey, if_neg h3, JFields.hasKey]
        rw [JFields.hasKey_eraseKey_ne tl h]

theorem JFields.lookup_setKey_ne : ∀ (fs : JFields) {k k2 : String} (v : JVal), k2 ≠ k →
    (fs.setKey k v).lookup k2 = fs.lookup k2
  | .nil, k, k2, v, h => by
      have hne : ¬(k = k2) := fun hh => h hh.symm
      simp [JFields.setKey, JFields.lookup, hne]
  | .cons k3 v2 tl, k, k2, v, h => by
      by_cases h3 : k3 = k
      · subst h3
        have hne : ¬(k3 = k2) := fun hh => h hh.symm
        simp [JFields.setKey, JFields.lookup, hne]
      · simp only [JFields.setKey, if_neg h3, JFields.lookup]
        by_cases h2 : k3 = k2
        · simp [h2]
        · simp only [if_neg h2]
          exact JFields.lookup_setKey_ne tl v h

theorem JFields.hasKey_setKey_ne : ∀ (fs : JFields) {k k2 : String} (v : JVal), k2 ≠ k →
    (fs.setKey k v).hasKey k2 = fs.hasKey k2
  | .nil, k, k2, v, h => by
      have hne : ¬(k = k2) := fun hh => h hh.symm
      simp [JFields.setKey, JFields.hasKey, hne]
  | .cons k3 v2 tl, k, k2, v, h => by
      by_cases h3 : k3 = k
      · subst h3
        simp [JFields.setKey, JFields.hasKey]
      · simp only [JFields.setKey, if_neg h3, JFields.hasKey]
        rw [JFields.hasKey_setKey_ne tl v h]

theorem JFields.setKey_eraseKey_comm : ∀ (fs : JFields) {k k2 : String} (v : JVal), k ≠ k2 →
    (fs.eraseKey k2).setKey k v = (fs.setKey k v).eraseKey k2
  | .nil, k, k2, v, h => by
      simp [JFields.setKey, JFields.eraseKey, h]
  | .cons k3 v2 tl, k, k2, v, h => by
      by_cases h3 : k3 = k2
      · subst h3
        have hne : ¬(k3 = k) := fun hh => h hh.symm
        simp [JFields.eraseKey, JFields.setKey, hne, JFields.setKey_eraseKey_comm tl v h]
      · simp only [JFields.eraseKey, if_neg h3, JFields.setKey]
        by_cases hk : k3 = k
        · simp [hk, JFields.eraseKey, h3, if_neg h]
        · simp only [if_neg hk, JFields.eraseKey, if_neg h3]
          rw [JFields.setKey_eraseKey_comm tl v h]

theorem JFields.eraseKey_idem : ∀ (fs : JFields) (k : String),
    (fs.eraseKey k).eraseKey k = fs.eraseKey k
  | .nil, _ => rfl
  | .cons k3 v tl, k => by
      by_cases h3 : k3 = k
      · simp [JFields.eraseKey, h3, JFields.eraseKey_idem tl k]
      · simp [JFields.eraseKey, h3, JFields.eraseKey_idem tl k]

theorem JFields.hasKey_eraseKey_self : ∀ (fs : JFields) (k : String),
    (fs.eraseKey k).hasKey k = false
  | .nil, _ => rfl
  | .cons k3 v tl, k => by
      by_cases h3 : k3 = k
      · simp [JFields.eraseKey, h3, JFields.hasKey_eraseKey_self tl k]
      · simp [JFields.eraseKey, h3, JFields.hasKey, JFields.hasKey_eraseKey_self tl k]

theorem JFields.lookup_setKey_self : ∀ (fs : JFields) (k : String) (v : JVal),
    (fs.setKey k v).lookup k = some v
  | .nil, k, v => by simp [JFields.setKey, JFields.lookup]
  | .cons k3 v2 tl, k, v => by
      by_cases h3 : k3 = k
      · simp [JFields.setKey, h3, JFields.lookup]
      · simp [JFields.setKey, h3, JFields.lookup, JFields.lookup_setKey_self tl k v]

theorem JFields.setKey_lookup_self : ∀ (fs : JFields) {k : String} {v : JVal},
    fs.lookup k = some v → fs.setKey k v = fs
  | .nil, k, v, h => by simp [JFields.lookup] at h
  | .cons k3 v2 tl, k, v, h => by
      by_cases h3 : k3 = k
      · simp only [JFields.lookup, if_pos h3, Option.some.injEq] at h
        simp [JFields.setKey, h3, h]
      · simp only [JFields.lookup, if_neg h3] at h
        simp [JFields.setKey, h3, JFields.setKey_lookup_self tl h]

theorem JFields.eraseKey_of_hasKey_false : ∀ (fs : JFields) {k : String},
    fs.hasKey k = false → fs.eraseKey k = fs
  | .nil, _, _ => rfl
  | .cons k3 v tl, k, h => by
      simp only [JFields.hasKey, Bool.or_eq_false_iff, decide_eq_false_iff_not] at h
      simp [JFields.eraseKey, h.1, JFields.eraseKey_of_hasKey_false tl h.2]

theorem isObjOrArr_generateMut (d : JVal) : (generateMut d).isObjOrArr = d.isObjOrArr := by
  cases d <;> rfl

theorem getD_generateMut {k : String} (d : JVal) (h1 : k ≠ "tgs") (h2 : k ≠ "markers")
    (h3 : k ≠ "fonts") (h4 : k ≠ "chars") : (generateMut d).getD k = d.getD k := by
  cases d <;>
    simp [generateMut, JVal.getD, JFields.lookup_eraseKey_ne _ h4,
      JFields.lookup_eraseKey_ne _ h3, JFields.lookup_eraseKey_ne _ h2,
      JFields.lookup_setKey_ne _ _ h1]

theorem hasKeyB_generateMut {k : String} (d : JVal) (h1 : k ≠ "tgs") (h2 : k ≠ "markers")
    (h3 : k ≠ "fonts") (h4 : k ≠ "chars") : (generateMut d).hasKeyB k = d.hasKeyB k := by
  cases d <;>
    simp [generateMut, JVal.hasKeyB, JFields.hasKey_eraseKey_ne _ h4,
      JFields.hasKey_eraseKey_ne _ h3, JFields.hasKey_eraseKey_ne _ h2,
      JFields.hasKey_setKey_ne _ _ h1]

theorem hasKeyB_generateMut_fonts (d : JVal) : (generateMut d).hasKeyB "fonts" = false := by
  cases d <;>
    simp [generateMut, JVal.hasKeyB, JFields.hasKey_eraseKey_ne _ (by decide : "fonts" ≠ "chars"),
      JFields.hasKey_eraseKey_self]

theorem hasKeyB_generateMut_chars (d : JVal) : (generateMut d).hasKeyB "chars" = false := by
  cases d <;> simp [generateMut, JVal.hasKeyB, JFields.hasKey_eraseKey_self]

theorem generateMut_idem (d : JVal) : generateMut (generateMut d) = generateMut d := by
  cases d with
  | obj fs =>
      simp only [generateMut]
      congr 1
      set G := JFields.eraseKey "chars"
        (JFields.eraseKey "fonts"
          (JFields.eraseKey "markers" (JFields.setKey "tgs" (JVal.num 1) fs))) with hG
      have h1 : JFields.lookup "tgs" G = some (JVal.num 1) := by
        rw [hG, JFields.lookup_eraseKey_ne _ (by decide : "tgs" ≠ "chars"),
          JFields.lookup_eraseKey_ne _ (by decide : "tgs" ≠ "fonts"),
          JFields.lookup_eraseKey_ne _ (by decide : "tgs" ≠ "markers"),
          JFields.lookup_setKey_self]
      rw [JFields.setKey_lookup_self G h1]
      have h2 : JFields.hasKey "markers" G = false := by
        rw [hG, JFields.hasKey_eraseKey_ne _ (by decide : "markers" ≠ "chars"),
          JFields.hasKey_eraseKey_ne _ (by decide : "markers" ≠ "fonts"),
          JFields.hasKey_eraseKey_self]
      rw [JFields.eraseKey_of_hasKey_false G h2]
      have h3 : JFields.hasKey "fonts" G = false := by
        rw [hG, JFields.hasKey_eraseKey_ne _ (by decide : "fonts" ≠ "chars"),
          JFields.hasKey_eraseKey_self]
      rw [JFields.eraseKey_of_hasKey_false G h3]
      exact JFields.eraseKey_of_hasKey_false G (by rw [hG]; exact JFields.hasKey_eraseKey_self _ _)
  | undefined => rfl
  | null => rfl
  | bool b => rfl
  | num q => rfl
  | str s => rfl
  | arr xs => rfl

theorem assetsBlock_congr {d d2 : JVal} (h1 : d.isObjOrArr = true) (h2 : d2.isObjOrArr = true)
    (hk : d.hasKeyB "assets" = d2.hasKeyB "assets") (hg : d.getD "assets" = d2.getD "assets") :
    assetsBlock d = assetsBlock d2 := by
  simp only [assetsBlock, hasKeyIn_of_objOrArr h1, hasKeyIn_of_objOrArr h2,
    get_of_objOrArr h1, get_of_objOrArr h2, hk, hg]

theorem layersBlock_congr {d d2 : JVal} (h1 : d.isObjOrArr = true) (h2 : d2.isObjOrArr = true)
    (hk : d.hasKeyB "layers" = d2.hasKeyB "layers") (hg : d.getD "layers" = d2.getD "layers") :
    layersBlock d = layersBlock d2 := by
  simp only [layersBlock, hasKeyIn_of_objOrArr h1, hasKeyIn_of_objOrArr h2,
    get_of_objOrArr h1, get_of_objOrArr h2, hk, hg]

theorem generateMut_eraseMarkers (fs : JFields) :
    generateMut (.obj (fs.eraseKey "markers")) = generateMut (.obj fs) := by
  simp only [generateMut]
  congr 1
  rw [JFields.setKey_eraseKey_comm fs (.num 1) (by decide : "tgs" ≠ "markers"),
    JFields.eraseKey_idem]

set_option maxRecDepth 8000 in
/-- C7 counterexample: a document carrying a non-empty `markers` list and
passing every other check validates with an empty diagnostics sequence - no
markers diagnostic is produced (the check is commented out in the source). -/
theorem c7_markers_counterexample :
    (docMarkers.getD "markers").arrLen = 1 ∧
      validate zeroSize docMarkers = .ok ([], generateMut docMarkers) :=
  ⟨by with_unfolding_all rfl, by with_unfolding_all rfl⟩

/-- C7 amended: the `markers` field has no effect whatsoever on `validate`:
deleting it changes neither the diagnostics nor the returned document state
(the residual `'markers' in this._data` test is dead, and the size probe
erases `markers` before measuring). -/
theorem c7_markers_amended (asize : JVal → Nat) (fs : JFields) :
    validate asize (.obj (fs.eraseKey "markers")) = validate asize (.obj fs) := by
  have h1 : (JVal.obj (fs.eraseKey "markers")).isObjOrArr = true := rfl
  have h2 : (JVal.obj fs).isObjOrArr = true := rfl
  have hgetD : ∀ k : String, k ≠ "markers" →
      (JVal.obj (fs.eraseKey "markers")).getD k = (JVal.obj fs).getD k := by
    intro k hk
    simp [JVal.getD, JFields.lookup_eraseKey_ne _ hk]
  have hhasKey : ∀ k : String, k ≠ "markers" →
      (JVal.obj (fs.eraseKey "markers")).hasKeyB k = (JVal.obj fs).hasKeyB k := by
    intro k hk
    simp [JVal.hasKeyB, JFields.hasKey_eraseKey_ne _ hk]
  simp only [validate]
  rw [docChecks_objOrArr h1, docChecks_objOrArr h2,
    assetsBlock_congr h1 h2 (hhasKey _ (by decide)) (hgetD _ (by decide)),
    layersBlock_congr h1 h2 (hhasKey _ (by decide)) (hgetD _ (by decide)),
    fontsCharsChecks_objOrArr h1, fontsCharsChecks_objOrArr h2]
  have hdv : docChecksVal (.obj (fs.eraseKey "markers")) = docChecksVal (.obj fs) := by
    simp only [docChecksVal, frCond, durCond, dimCond, dddCond,
      hgetD "fr" (by decide), hgetD "op" (by decide), hgetD "ip" (by decide),
      hgetD "w" (by decide), hgetD "h" (by decide), hgetD "ddd" (by decide)]
  have hfc : fontsCharsVal (.obj (fs.eraseKey "markers")) = fontsCharsVal (.obj fs) := by
    simp only [fontsCharsVal, fontsCond, charsCond,
      hgetD "fonts" (by decide), hgetD "chars" (by decide),
      hhasKey "fonts" (by decide), hhasKey "chars" (by decide)]
  have hsz : sizeCheck asize (.obj (fs.eraseKey "markers")) = sizeCheck asize (.obj fs) := by
    simp only [sizeCheck, generateMut_eraseMarkers]
  rw [hdv, hfc, hsz]

set_option maxRecDepth 8000 in
/-- C6: evaluation at the failing input.  The inner asset layer, checked on
its own, is flagged as a Solid - yet `validate` on the document returns no
diagnostic at all, because the source passes the whole `asset.layers` array
(not each element) to `checkLayer`, which finds nothing on an array. -/
theorem c6_asset_solid_unreported :
    checkLayer (jobj [("ty", .num 1)]) =
        .ok [Diag.mk "Composition should not include any Solids" []] ∧
      validate zeroSize docAssetSolid = .ok ([], generateMut docAssetSolid) :=
  ⟨by with_unfolding_all rfl, by with_unfolding_all rfl⟩

set_option maxRecDepth 8000 in
/-- C8 counterexample: on a document with a non-empty `fonts` list the first
`validate` call reports the fonts violation and - through the embedded
`generate` - strips the `fonts` field, so the second call returns a different
(shorter) sequence. -/
theorem c8_idempotence_counterexample :
    validate zeroSize docFonts = .ok ([Diag.mk "Should not have fonts" []], generateMut docFonts) ∧
      validate zeroSize (generateMut docFonts) = .ok ([], generateMut docFonts) ∧
      ([Diag.mk "Should not have fonts" []] : List Diag) ≠ [] :=
  ⟨by with_unfolding_all rfl, by with_unfolding_all rfl, by simp⟩

/-- C8 amended: `validate` is idempotent on documents without a fonts or
glyph-chars violation: when the first call succeeds, calling `validate` again
on the (possibly mutated) stored document returns the same diagnostics and
the same document state. -/
theorem c8_idempotent_amended {asize : JVal → Nat} {d : JVal} {e : List Diag} {d2 : JVal}
    (hv : validate asize d = .ok (e, d2)) (hf : fontsCond d = false)
    (hc : charsCond d = false) : validate asize d2 = .ok (e, d2) := by
  obtain ⟨e1, e2, e3, e4, h1, h2, h3, h4, he, hd⟩ := validate_ok_iff.mp hv
  have hobj := docChecks_ok_isObjOrArr h1
  have hobj2 : d2.isObjOrArr = true := by
    rw [hd]
    simp only [sizeCheck_snd, isObjOrArr_generateMut]
    exact hobj
  have hd2 : d2 = generateMut d := by simpa using hd
  have hgetD : ∀ k : String, k ≠ "tgs" → k ≠ "markers" → k ≠ "fonts" → k ≠ "chars" →
      d2.getD k = d.getD k := by
    intro k hk1 hk2 hk3 hk4
    rw [hd2]
    exact getD_generateMut d hk1 hk2 hk3 hk4
  have hhasKey : ∀ k : String, k ≠ "tgs" → k ≠ "markers" → k ≠ "fonts" → k ≠ "chars" →
      d2.hasKeyB k = d.hasKeyB k := by
    intro k hk1 hk2 hk3 hk4
    rw [hd2]
    exact hasKeyB_generateMut d hk1 hk2 hk3 hk4
  rw [fontsCharsChecks_objOrArr hobj] at h4
  injection h4 with h4
  apply validate_ok_iff.mpr
  refine ⟨e1, e2, e3, e4, ?_, ?_, ?_, ?_, ?_, ?_⟩
  · rw [docChecks_objOrArr hobj2]
    rw [docChecks_objOrArr hobj] at h1
    rw [← h1]
    congr 1
    simp only [docChecksVal, frCond, durCond, dimCond, dddCond,
      hgetD "fr" (by decide) (by decide) (by decide) (by decide),
      hgetD "op" (by decide) (by decide) (by decide) (by decide),
      hgetD "ip" (by decide) (by decide) (by decide) (by decide),
      hgetD "w" (by decide) (by decide) (by decide) (by decide),
      hgetD "h" (by decide) (by decide) (by decide) (by decide),
      hgetD "ddd" (by decide) (by decide) (by decide) (by decide)]
  · rw [assetsBlock_congr hobj2 hobj
      (hhasKey "assets" (by decide) (by decide) (by decide) (by decide))
      (hgetD "assets" (by decide) (by decide) (by decide) (by decide))]
    exact h2
  · rw [layersBlock_congr hobj2 hobj
      (hhasKey "layers" (by decide) (by decide) (by decide) (by decide))
      (hgetD "layers" (by decide) (by decide) (by decide) (by decide))]
    exact h3
  · rw [fontsCharsChecks_objOrArr hobj2]
    rw [← h4]
    congr 1
    have hf2 : fontsCond d2 = false := by
      simp only [fontsCond, hd2, hasKeyB_generateMut_fonts, Bool.false_and]
    have hc2 : charsCond d2 = false := by
      simp only [charsCond, hd2, hasKeyB_generateMut_chars, Bool.false_and]
    simp only [fontsCharsVal, hf, hc, hf2, hc2, if_false]
  · have hsz : sizeCheck asize d2 = sizeCheck asize d := by
      simp only [sizeCheck, hd2, generateMut_idem]
    rw [he, hsz]
  · have hsz : sizeCheck asize d2 = sizeCheck asize d := by
      simp only [sizeCheck, hd2, generateMut_idem]
    rw [hsz, ← hd]

/-! ### Structural-soundness lemmas for C1 -/

theorem get_of_not_nullish {v : JVal} (h : v.isNullish = false) (k : String) :
    v.get k = .ok (v.getD k) := by
  cases v <;> simp_all [JVal.isNullish, JVal.get, JVal.getD]

theorem itemsGoLeaf_ok : ∀ (ys : JList) (recur : JVal → Except String (List Diag)),
    ys.all (fun y => !y.isNullish) = true → ∃ r, itemsGo recur false ys = .ok r
  | .nil, _, _ => ⟨[], rfl⟩
  | .cons y tl, recur, h => by
      simp only [JList.all, Bool.and_eq_true, Bool.not_eq_true'] at h
      obtain ⟨r, hr⟩ := itemsGoLeaf_ok tl recur h.2
      refine ⟨shapeTypeFlags (y.getD "ty") ++ [] ++ r, ?_⟩
      simp [itemsGo, get_of_not_nullish h.1, hr]

theorem checkItemsBodyLeaf_ok {v : JVal} (recur : JVal → Except String (List Diag))
    (h : benignIt v = true) : ∃ r, checkItemsBody recur v false = .ok r := by
  cases v with
  | null => exact ⟨[], rfl⟩
  | undefined => exact ⟨[], rfl⟩
  | arr ys =>
      simp only [benignIt] at h
      exact itemsGoLeaf_ok ys recur h
  | bool b => simp [benignIt] at h
  | num q => simp [benignIt] at h
  | str s => simp [benignIt] at h
  | obj fs => simp [benignIt] at h

theorem itemsGoRoot_ok : ∀ (xs : JList) (recur : JVal → Except String (List Diag)),
    xs.all benignRootItem = true →
    (∀ v, benignIt v = true → ∃ r, recur v = .ok r) →
    ∃ r, itemsGo recur true xs = .ok r
  | .nil, _, _, _ => ⟨[], rfl⟩
  | .cons item tl, recur, h, hrec => by
      simp only [JList.all, Bool.and_eq_true] at h
      have h1 := h.1
      simp only [benignRootItem, Bool.and_eq_true, Bool.not_eq_true'] at h1
      obtain ⟨rn, hrn⟩ := hrec _ h1.2
      obtain ⟨rt, hrt⟩ := itemsGoRoot_ok tl recur h.2 hrec
      refine ⟨shapeTypeFlags (item.getD "ty") ++
        (if rn.isEmpty then []
         else [Diag.mk "Composition items should not have errors" rn]) ++ rt, ?_⟩
      simp [itemsGo, get_of_not_nullish h1.1, hrn, hrt]

theorem checkItems_arr_ok {xs : JList} (h : xs.all benignRootItem = true) :
    ∃ r, checkItems (.arr xs) true = .ok r :=
  itemsGoRoot_ok xs _ h (fun _ hv => checkItemsBodyLeaf_ok _ hv)

theorem JFields.hasKey_eq_isSome : ∀ (fs : JFields) (k : String),
    fs.hasKey k = (fs.lookup k).isSome
  | .nil, _ => rfl
  | .cons k3 v tl, k => by
      by_cases h3 : k3 = k
      · simp [JFields.hasKey, JFields.lookup, h3]
      · simp [JFields.hasKey, JFields.lookup, h3, JFields.hasKey_eq_isSome tl k]

theorem exists_ok_of_isOk {α : Type} {x : Except String α} (h : x.isOk = true) :
    ∃ r, x = .ok r := by
  cases x with
  | ok v => exact ⟨v, rfl⟩
  | error e => simp [Except.isOk, Except.toBool] at h

theorem checkLayer_ok {l : JVal} (h : benignLayer l = true) : ∃ r, checkLayer l = .ok r := by
  cases l with
  | arr xs => exact ⟨[], checkLayer_arr xs⟩
  | obj fs =>
      rcases hsh : fs.lookup "shapes" with _ | v
      · have hk : fs.hasKey "shapes" = false := by
          rw [JFields.hasKey_eq_isSome, hsh]
          rfl
        exact exists_ok_of_isOk (by simp [checkLayer, hk, Except.isOk, Except.toBool])
      · have hk : fs.hasKey "shapes" = true := by
          rw [JFields.hasKey_eq_isSome, hsh]
          rfl
        cases v with
        | arr ys =>
            have hall : ys.all benignRootItem = true := by
              simp only [benignLayer, hsh] at h
              exact h
            obtain ⟨r, hr⟩ := checkItems_arr_ok hall
            exact exists_ok_of_isOk
              (by simp [checkLayer, hk, hsh, hr, JVal.isArr, Except.isOk, Except.toBool])
        | undefined => exact exists_ok_of_isOk (by simp [checkLayer, hk, hsh, JVal.isArr, Except.isOk, Except.toBool])
        | null => exact exists_ok_of_isOk (by simp [checkLayer, hk, hsh, JVal.isArr, Except.isOk, Except.toBool])
        | bool b => exact exists_ok_of_isOk (by simp [checkLayer, hk, hsh, JVal.isArr, Except.isOk, Except.toBool])
        | num q => exact exists_ok_of_isOk (by simp [checkLayer, hk, hsh, JVal.isArr, Except.isOk, Except.toBool])
        | str s => exact exists_ok_of_isOk (by simp [checkLayer, hk, hsh, JVal.isArr, Except.isOk, Except.toBool])
        | obj fs2 =>
            exact exists_ok_of_isOk (by simp [checkLayer, hk, hsh, JVal.isArr, Except.isOk, Except.toBool])
  | undefined => simp [benignLayer] at h
  | null => simp [benignLayer] at h
  | bool b => simp [benignLayer] at h
  | num q => simp [benignLayer] at h
  | str s => simp [benignLayer] at h

theorem wrapGo_ok : ∀ (xs : JList), xs.all benignLayer = true → ∀ (acc : List Diag) (k : Nat),
    ∃ r, wrapGo acc k xs = .ok r
  | .nil, _, acc, k => ⟨(acc, k), rfl⟩
  | .cons l tl, h, acc, k => by
      simp only [JList.all, Bool.and_eq_true] at h
      obtain ⟨el, hel⟩ := checkLayer_ok h.1
      obtain ⟨r, hr⟩ := wrapGo_ok tl h.2
        (if el.isEmpty then acc else acc ++ [Diag.mk "Layer " el])
        (if (if el.isEmpty then acc else acc ++ [Diag.mk "Layer " el]).isEmpty then k else k + 1)
      exact ⟨r, by simp only [wrapGo, hel, except_ok_bind]; exact hr⟩

theorem assetEntry_ok {a : JVal} (ha : a.isObjOrArr = true) (i : Nat) :
    assetEntry i a = .ok [] := by
  cases a with
  | arr xs => rfl
  | obj fs =>
      by_cases hk : fs.hasKey "layers" = true
      · rcases hv : (fs.lookup "layers").getD .undefined with _ | _ | b | q | s | ys | gs <;>
          simp [assetEntry, hk, hv, checkLayer_arr, JVal.isArr]
      · simp [assetEntry, hk]
  | undefined => simp [JVal.isObjOrArr] at ha
  | null => simp [JVal.isObjOrArr] at ha
  | bool b => simp [JVal.isObjOrArr] at ha
  | num q => simp [JVal.isObjOrArr] at ha
  | str s => simp [JVal.isObjOrArr] at ha

theorem assetsGo_ok : ∀ (xs : JList), xs.all JVal.isObjOrArr = true → ∀ (i : Nat),
    assetsGo i xs = .ok []
  | .nil, _, _ => rfl
  | .cons a tl, h, i => by
      simp only [JList.all, Bool.and_eq_true] at h
      simp [assetsGo, assetEntry_ok h.1, assetsGo_ok tl h.2]

theorem assetsBlock_ok_benign {d : JVal} (hb : benignDoc d = true) :
    assetsBlock d = .ok [] := by
  cases d with
  | arr xs => simp [assetsBlock]
  | obj fs =>
      have hb1 : (match fs.lookup "assets" with
          | some (.arr xs) => xs.all JVal.isObjOrArr
          | _ => true) = true := by
        simp only [benignDoc, Bool.and_eq_true] at hb
        exact hb.1
      by_cases hk : fs.hasKey "assets" = true
      · rcases hv : fs.lookup "assets" with _ | v
        · simp [assetsBlock, hk, hv]
        · cases v with
          | arr ys =>
              rw [hv] at hb1
              simp [assetsBlock, hk, hv, assetsGo_ok ys hb1]
          | undefined => simp [assetsBlock, hk, hv]
          | null => simp [assetsBlock, hk, hv]
          | bool b => simp [assetsBlock, hk, hv]
          | num q => simp [assetsBlock, hk, hv]
          | str s => simp [assetsBlock, hk, hv]
          | obj fs2 => simp [assetsBlock, hk, hv]
      · simp [assetsBlock, hk]
  | undefined => simp [benignDoc] at hb
  | null => simp [benignDoc] at hb
  | bool b => simp [benignDoc] at hb
  | num q => simp [benignDoc] at hb
  | str s => simp [benignDoc] at hb

theorem layersBlock_ok_benign {d : JVal} (hb : benignDoc d = true) :
    ∃ e3, layersBlock d = .ok e3 ∧
      ((d.hasKeyB "layers" && (d.getD "layers").isArr) = false →
        e3 = [Diag.mk "Should have atleast 1 layer" []]) := by
  cases d with
  | arr xs => exact ⟨[Diag.mk "Should have atleast 1 layer" []], by simp [layersBlock], fun _ => rfl⟩
  | obj fs =>
      have hb2 : (match fs.lookup "layers" with
          | some (.arr xs) => xs.all benignLayer
          | _ => true) = true := by
        simp only [benignDoc, Bool.and_eq_true] at hb
        exact hb.2
      by_cases hk : fs.hasKey "layers" = true
      · rcases hv : fs.lookup "layers" with _ | v
        · exact ⟨[Diag.mk "Should have atleast 1 layer" []], by simp [layersBlock, hk, hv], fun _ => rfl⟩
        · cases v with
          | arr ys =>
              rw [hv] at hb2
              obtain ⟨r, hr⟩ := wrapGo_ok ys hb2 [] 0
              refine ⟨List.replicate r.2 (Diag.mk "Layers have errors" r.1), ?_, ?_⟩
              · simp [layersBlock, hk, hv, hr]
              · intro hcond
                exfalso
                simp [JVal.hasKeyB_obj, JVal.getD_obj, hk, hv, JVal.isArr] at hcond
          | undefined => exact ⟨[Diag.mk "Should have atleast 1 layer" []], by simp [layersBlock, hk, hv], fun _ => rfl⟩
          | null => exact ⟨[Diag.mk "Should have atleast 1 layer" []], by simp [layersBlock, hk, hv], fun _ => rfl⟩
          | bool b => exact ⟨[Diag.mk "Should have atleast 1 layer" []], by simp [layersBlock, hk, hv], fun _ => rfl⟩
          | num q => exact ⟨[Diag.mk "Should have atleast 1 layer" []], by simp [layersBlock, hk, hv], fun _ => rfl⟩
          | str s => exact ⟨[Diag.mk "Should have atleast 1 layer" []], by simp [layersBlock, hk, hv], fun _ => rfl⟩
          | obj fs2 => exact ⟨[Diag.mk "Should have atleast 1 layer" []], by simp [layersBlock, hk, hv], fun _ => rfl⟩
      · exact ⟨[Diag.mk "Should have atleast 1 layer" []], by simp [layersBlock, hk], fun _ => rfl⟩
  | undefined => simp [benignDoc] at hb
  | null => simp [benignDoc] at hb
  | bool b => simp [benignDoc] at hb
  | num q => simp [benignDoc] at hb
  | str s => simp [benignDoc] at hb

/-- C1 amended: on every structurally sound document (object or array
receiver, object-or-array asset entries, sound layer entries) `validate`
terminates normally with a diagnostics sequence, and a missing or non-list
`layers` field yields the at-least-one-layer diagnostic rather than a
failure. -/
theorem c1_validate_total_amended {asize : JVal → Nat} {d : JVal} (hb : benignDoc d = true) :
    ∃ e d2, validate asize d = .ok (e, d2) ∧
      ((d.hasKeyB "layers" && (d.getD "layers").isArr) = false →
        Diag.mk "Should have atleast 1 layer" [] ∈ e) := by
  have hobj : d.isObjOrArr = true := by
    cases d <;> simp_all [benignDoc, JVal.isObjOrArr]
  obtain ⟨e3, hl, hl2⟩ := layersBlock_ok_benign hb
  refine ⟨docChecksVal d ++ [] ++ e3 ++ fontsCharsVal d ++ (sizeCheck asize d).1,
    (sizeCheck asize d).2,
    validate_ok_iff.mpr ⟨docChecksVal d, [], e3, fontsCharsVal d,
      docChecks_objOrArr hobj, assetsBlock_ok_benign hb, hl,
      fontsCharsChecks_objOrArr hobj, rfl, rfl⟩, ?_⟩
  intro hcond
  rw [hl2 hcond]
  simp

/-- C1 counterexample: a document whose `layers` list contains `null` makes
`validate` raise (the `layer.ddd` read inside `checkLayer` is a TypeError),
so `validate` does not return a diagnostics sequence for every document. -/
theorem c1_validate_counterexample :
    validate zeroSize docNullLayer = .error "TypeError" := by
  with_unfolding_all rfl

/-- C1 witness: the empty document is structurally sound, and `validate`
returns normally on it with the at-least-one-layer diagnostic. -/
theorem c1_validate_total_amended_witness :
    benignDoc (jobj []) = true ∧
      ∃ e d2, validate zeroSize (jobj []) = .ok (e, d2) ∧
        Diag.mk "Should have atleast 1 layer" [] ∈ e := by
  refine ⟨rfl, ?_⟩
  obtain ⟨e, d2, hv, hmem⟩ := @c1_validate_total_amended zeroSize (jobj []) rfl
  exact ⟨e, d2, hv, hmem rfl⟩

set_option maxRecDepth 8000 in
/-- C8 witness: on the clean document (no fonts, no chars) a second
`validate` call returns the same empty sequence and the same stored
document. -/
theorem c8_idempotent_amended_witness :
    validate zeroSize (generateMut docClean) = .ok ([], generateMut docClean) :=
  c8_idempotent_amended
    (by with_unfolding_all rfl :
      validate zeroSize docClean = .ok ([], generateMut docClean))
    (by with_unfolding_all rfl) (by with_unfolding_all rfl)

set_option maxRecDepth 8000 in
/-- C5 counterexample: a repeater at `shapes[0].it[0]` (one level inside a
group) IS flagged - `validate` returns the nested Repeaters diagnostic, not
an empty sequence. -/
theorem c5_depth2_flagged_counterexample :
    validate zeroSize docNestedRp =
      .ok ([Diag.mk "Layers have errors"
          [Diag.mk "Layer "
            [Diag.mk "Composition shapes should not have errors"
              [Diag.mk "Composition items should not have errors"
                [Diag.mk "Composition should not include any Repeaters" []]]]]],
        generateMut docNestedRp) := by
  with_unfolding_all rfl

theorem get_ok_getD {v : JVal} {k : String} {t : JVal} (h : v.get k = .ok t) :
    t = v.getD k := by
  cases v <;> simp_all [JVal.get, JVal.getD]

theorem shapeTypeFlags_rp {ty : JVal} (h : jsEqStr ty "rp" = true) :
    Diag.mk "Composition should not include any Repeaters" [] ∈ shapeTypeFlags ty := by
  simp [shapeTypeFlags, h]

theorem itemsGoLeaf_mem : ∀ (ys : JList) {recur : JVal → Except String (List Diag)}
    {ie : List Diag}, itemsGo recur false ys = .ok ie → ∀ {y : JVal}, y ∈ ys.toList →
    jsEqStr (y.getD "ty") "rp" = true →
    "Composition should not include any Repeaters" ∈ ie.map Diag.message
  | .nil, _, _, _, _, hy, _ => by simp [JList.toList] at hy
  | .cons y0 tl, recur, ie, h, y, hy, hrp => by
      simp only [itemsGo] at h
      rw [except_bind_ok] at h
      obtain ⟨ty, hty, h⟩ := h
      simp only [Bool.false_eq_true, if_false, except_pure_eq_ok, except_ok_bind] at h
      rw [except_bind_ok] at h
      obtain ⟨rest, hrest, h⟩ := h
      simp only [except_pure_eq_ok, Except.ok.injEq] at h
      subst h
      simp only [JList.toList, List.mem_cons] at hy
      rcases hy with hy | hy
      · subst hy
        have hty2 := get_ok_getD hty
        subst hty2
        have hmem := shapeTypeFlags_rp hrp
        simp only [List.map_append, List.mem_append]
        exact Or.inl (Or.inl (List.mem_map_of_mem Diag.message hmem))
      · have := itemsGoLeaf_mem tl hrest hy hrp
        simp only [List.map_append, List.mem_append]
        exact Or.inr this

theorem itemsGoRoot_mem : ∀ (xs : JList) {res : List Diag},
    itemsGo (fun ch => checkItemsBody (fun _ => pure []) ch false) true xs = .ok res →
    ∀ {g : JVal}, g ∈ xs.toList → ∀ {ys : JList}, g.getD "it" = .arr ys →
    ∀ {y : JVal}, y ∈ ys.toList → jsEqStr (y.getD "ty") "rp" = true →
    ∃ sub, Diag.mk "Composition items should not have errors" sub ∈ res ∧
      "Composition should not include any Repeaters" ∈ sub.map Diag.message
  | .nil, _, _, _, hg, _, _, _, _, _ => by simp [JList.toList] at hg
  | .cons g0 tl, res, h, g, hg, ys, hit, y, hy, hrp => by
      simp only [itemsGo] at h
      rw [except_bind_ok] at h
      obtain ⟨ty, hty, h⟩ := h
      rw [if_pos trivial] at h
      rw [except_bind_ok] at h
      obtain ⟨children, hch, h⟩ := h
      rw [except_bind_ok] at h
      obtain ⟨itemErrors, hie, h⟩ := h
      rw [except_bind_ok] at h
      obtain ⟨nested, hnested, h⟩ := h
      rw [except_bind_ok] at h
      obtain ⟨rest, hrest, h⟩ := h
      simp only [except_pure_eq_ok, Except.ok.injEq] at h hnested
      subst h
      subst hnested
      simp only [JList.toList, List.mem_cons] at hg
      rcases hg with hg | hg
      · subst hg
        have hch2 := get_ok_getD hch
        rw [hit] at hch2
        subst hch2
        have hie2 : itemsGo (fun _ => pure []) false ys = .ok itemErrors := by
          simpa [checkItemsBody, jsNeNull, JVal.isNullish] using hie
        have hmem := itemsGoLeaf_mem ys hie2 hy hrp
        have hne : itemErrors.isEmpty = false := by
          cases itemErrors with
          | nil => simp at hmem
          | cons a tl2 => rfl
        refine ⟨itemErrors, ?_, hmem⟩
        simp [hne]
      · obtain ⟨sub, hsub, hsubmem⟩ := itemsGoRoot_mem tl hrest hg hit hy hrp
        exact ⟨sub, by simp [hsub], hsubmem⟩

theorem checkItems_depth2_mem {xs : JList} {res : List Diag}
    (h : checkItems (.arr xs) true = .ok res) {g : JVal} (hg : g ∈ xs.toList)
    {ys : JList} (hit : g.getD "it" = .arr ys) {y : JVal} (hy : y ∈ ys.toList)
    (hrp : jsEqStr (y.getD "ty") "rp" = true) :
    ∃ sub, Diag.mk "Composition items should not have errors" sub ∈ res ∧
      "Composition should not include any Repeaters" ∈ sub.map Diag.message :=
  itemsGoRoot_mem xs h hg hit hy hrp

theorem eraseKeyJ_get_ne {v : JVal} {k k2 : String} (h : k2 ≠ k) :
    (eraseKeyJ k v).get k2 = v.get k2 := by
  cases v <;> simp [eraseKeyJ, JFields.lookup_eraseKey_ne _ h]

theorem itemsGoLeaf_erase : ∀ (ys : JList) (recur : JVal → Except String (List Diag)),
    itemsGo recur false (ys.mapJ (eraseKeyJ "it")) = itemsGo recur false ys
  | .nil, _ => rfl
  | .cons y tl, recur => by
      simp only [JList.mapJ, itemsGo, eraseKeyJ_get_ne (by decide : "ty" ≠ "it"),
        itemsGoLeaf_erase tl recur, Bool.false_eq_true, if_false]

theorem checkItemsBody_pruneTop {recur : JVal → Except String (List Diag)} (ch : JVal) :
    checkItemsBody recur (pruneTop ch) false = checkItemsBody recur ch false := by
  cases ch with
  | arr ys =>
      simp only [pruneTop, checkItemsBody, jsNeNull, JVal.isNullish]
      exact itemsGoLeaf_erase ys recur
  | undefined => rfl
  | null => rfl
  | bool b => rfl
  | num q => rfl
  | str s => rfl
  | obj fs => rfl

theorem pruneGrandFields_lookup_ne : ∀ (fs : JFields) {k : String}, k ≠ "it" →
    (pruneGrandFields fs).lookup k = fs.lookup k
  | .nil, _, _ => rfl
  | .cons k3 v tl, k, h => by
      by_cases h3 : k3 = k
      · simp [pruneGrandFields, JFields.lookup, h3, h]
      · simp [pruneGrandFields, JFields.lookup, h3, pruneGrandFields_lookup_ne tl h]

theorem pruneGrandFields_lookup_it : ∀ (fs : JFields),
    (pruneGrandFields fs).lookup "it" = (fs.lookup "it").map pruneTop
  | .nil => rfl
  | .cons k3 v tl => by
      by_cases h3 : k3 = "it"
      · simp [pruneGrandFields, JFields.lookup, h3]
      · simp [pruneGrandFields, JFields.lookup, h3, pruneGrandFields_lookup_it tl]

theorem pruneGrand_get_ty (g : JVal) : (pruneGrand g).get "ty" = g.get "ty" := by
  cases g <;> simp [pruneGrand, pruneGrandFields_lookup_ne _ (by decide : "ty" ≠ "it")]

theorem pruneGrand_get_it (g : JVal) :
    (pruneGrand g).get "it" = (g.get "it").map pruneTop := by
  cases g with
  | obj fs =>
      simp only [pruneGrand, JVal.get_obj, pruneGrandFields_lookup_it fs, Except.map_ok]
      cases fs.lookup "it" with
      | none => rfl
      | some v => rfl
  | undefined => rfl
  | null => rfl
  | bool b => rfl
  | num q => rfl
  | str s => rfl
  | arr xs => rfl

theorem itemsGoRoot_prune : ∀ (xs : JList),
    itemsGo (fun ch => checkItemsBody (fun _ => pure []) ch false) true (xs.mapJ pruneGrand) =
      itemsGo (fun ch => checkItemsBody (fun _ => pure []) ch false) true xs
  | .nil => rfl
  | .cons g tl => by
      simp only [JList.mapJ, itemsGo, pruneGrand_get_ty, itemsGoRoot_prune tl]
      cases hch : g.get "it" with
      | error e => simp [pruneGrand_get_it, hch, Except.map]
      | ok ch => simp [pruneGrand_get_it, hch, Except.map, checkItemsBody_pruneTop]

/-- C5 amended, first half: for every successful root-level `checkItems`
walk, a repeater sitting at `shapes[i].it[j]` (one level inside a group) IS
reported, nested under the per-item parent diagnostic.  Second half: the
walk never looks deeper - erasing the `it` collections of all grandchildren
(the subtrees strictly below depth two) does not change the result. -/
theorem c5_recursion_depth_amended :
    (∀ (xs : JList) (res : List Diag) (g : JVal) (ys : JList) (y : JVal),
      checkItems (.arr xs) true = .ok res → g ∈ xs.toList → g.getD "it" = .arr ys →
      y ∈ ys.toList → jsEqStr (y.getD "ty") "rp" = true →
      ∃ sub, Diag.mk "Composition items should not have errors" sub ∈ res ∧
        "Composition should not include any Repeaters" ∈ sub.map Diag.message) ∧
    (∀ xs : JList, checkItems (.arr (xs.mapJ pruneGrand)) true = checkItems (.arr xs) true) :=
  ⟨fun _ _ _ _ _ h hg hit hy hrp => checkItems_depth2_mem h hg hit hy hrp,
   fun xs => itemsGoRoot_prune xs⟩

set_option maxRecDepth 8000 in
/-- C5 witness: instantiates both halves of the amended recursion-depth
theorem on the one-group fixture with a repeater at depth two. -/
theorem c5_recursion_depth_amended_witness :
    (∃ sub, Diag.mk "Composition items should not have errors" sub ∈
        [Diag.mk "Composition items should not have errors"
          [Diag.mk "Composition should not include any Repeaters" []]] ∧
      "Composition should not include any Repeaters" ∈ sub.map Diag.message) ∧
    checkItems (.arr (groupShapes.mapJ pruneGrand)) true =
      checkItems (.arr groupShapes) true := by
  constructor
  · exact c5_recursion_depth_amended.1 groupShapes
      [Diag.mk "Composition items should not have errors"
        [Diag.mk "Composition should not include any Repeaters" []]]
      groupItem rpItList rpItem
      (by with_unfolding_all rfl)
      (List.Mem.head _)
      (by with_unfolding_all rfl)
      (List.Mem.head _)
      (by with_unfolding_all rfl)
  · exact c5_recursion_depth_amended.2 groupShapes

theorem itemsGo_false_congr : ∀ (xs : JList) (r r2 : JVal → Except String (List Diag)),
    itemsGo r false xs = itemsGo r2 false xs
  | .nil, _, _ => rfl
  | .cons y tl, r, r2 => by
      simp only [itemsGo, Bool.false_eq_true, if_false, itemsGo_false_congr tl r r2]

theorem checkItemsBody_false_congr (r r2 : JVal → Except String (List Diag)) (items : JVal) :
    checkItemsBody r items false = checkItemsBody r2 items false := by
  cases items with
  | arr xs => exact itemsGo_false_congr xs r r2
  | undefined => rfl
  | null => rfl
  | bool b => rfl
  | num q => rfl
  | str s => rfl
  | obj fs => rfl

/-- The source's recursive equation for `checkItems`: unfolding the
definition once reproduces the body with `checkItems · false` as the
self-call. -/
theorem checkItems_fix (items : JVal) (isRoot : Bool) :
    checkItems items isRoot = checkItemsBody (fun ch => checkItems ch false) items isRoot := by
  have hfun : (fun ch => checkItemsBody (fun _ => (pure [] : Except String (List Diag))) ch false)
      = fun ch => checkItems ch false := by
    funext ch
    exact checkItemsBody_false_congr _ _ ch
  calc checkItems items isRoot
      = checkItemsBody (fun ch => checkItemsBody (fun _ => pure []) ch false) items isRoot := rfl
    _ = checkItemsBody (fun ch => checkItems ch false) items isRoot := by rw [hfun]

/-- C10: a string whose JSON decode yields the boolean `false` is rejected:
the sentinel-based parseJSON makes the decoded value indistinguishable from a
parse failure, so load falls through to URL interpretation and, that failing,
raises the could-not-be-loaded error. -/
theorem c10_false_literal {jp : String → Option JVal} {pURL : String → Option String}
    {ftch : String → Option JVal} (h1 : jp "false" = some (.bool false))
    (h2 : pURL "false" = none) :
    load jp pURL ftch (.str "false") =
      .error "Given resource could not be loaded or is invalid." := by
  simp [load, parseJSON, h1, h2, JVal.isBoolFalse, jsToStr, JVal.typeofObject]

/-- C10 witness: with concrete collaborators, `load "false"` raises the
could-not-be-loaded error even though the input is literal JSON. -/
theorem c10_false_literal_witness :
    load jpFalseOnly noURL noFetch (.str "false") =
      .error "Given resource could not be loaded or is invalid." :=
  c10_false_literal (by simp [jpFalseOnly]) rfl

/-- C9 counterexample: the input text is valid JSON (it decodes to the
string "http://example.com/"), yet load returns the fetched object - a
remote fetch IS performed on the decoded value, so valid JSON does not
always win over URL interpretation. -/
theorem c9_json_wins_counterexample :
    (jpQuotedURL "\"http://example.com/\"").isSome = true ∧
      load jpQuotedURL pURLExample fetchStub (.str "\"http://example.com/\"") =
        .ok (jobj [("fetched", .num 1)]) := by
  constructor
  · rfl
  · rfl

/-- C9 amended: a successfully decoded JSON value is used as the effective
source with no fetch performed, provided the decoded value is not the
boolean `false` and its String coercion is not accepted by the URL parser;
the result then depends only on the decoded value. -/
theorem c9_json_wins_amended {jp : String → Option JVal} {pURL : String → Option String}
    {ftch : String → Option JVal} {s : String} {v : JVal}
    (h1 : jp s = some v) (h2 : v.isBoolFalse = false) (h3 : pURL (jsToStr v) = none) :
    load jp pURL ftch (.str s) =
      if v.typeofObject then .ok v
      else .error "Given resource could not be loaded or is invalid." := by
  simp [load, parseJSON, h1, h2, h3]

/-- C9 witness: the JSON text of an empty object decodes, is not URL-like,
and load stores the decoded object without fetching. -/
theorem c9_json_wins_amended_witness :
    load jpEmptyObj noURL noFetch (.str "{}") = .ok (jobj []) :=
  (c9_json_wins_amended
    (show jpEmptyObj "{}" = some (jobj []) by simp [jpEmptyObj])
    (show (jobj []).isBoolFalse = false from rfl)
    (show noURL (jsToStr (jobj [])) = none from rfl)).trans (by rfl)
